import Mathlib

/-
Verification of the fiber-vhosts2 virtual-host router (vhosts.go).

The Go maps `hosts` and `wildcards` are modelled as association lists with
first-match lookup; insertion is by cons, which is performed only when the
key is absent (AddHostname checks existence first), and deletion removes
every pair with the given key, so the association lists behave exactly like
the Go maps.  Handlers (`*fiber.App` references) are an opaque type
parameter `α`; the registry only stores and returns them.  Methods that
mutate the receiver are modelled as functions returning the (possibly
unchanged) new state, paired with the returned error where the Go method
returns one.  The RWMutex cannot itself be modelled in a sequential shallow
embedding; instead, the sequence of lock/unlock calls each operation
performs is transcribed from the source as a lock trace, one constant per
operation.

The Go standard-library string primitives the source calls —
strings.HasPrefix(h, "*."), the slice h[2:], strings.Split(h, ".") and
strings.Join(parts, ".") — are modelled as structurally recursive
functions on the string's character sequence.  The slice h[2:] removes two
bytes, which equals removing two characters whenever h begins with the
two one-byte characters "*."; the source only slices under that guard.
-/

namespace FiberVhosts

/-- Model of Go strings.HasPrefix on character sequences: the second list
is an initial segment of the first. -/
def charsBeginWith : List Char → List Char → Bool
  | _, [] => true
  | [], _ :: _ => false
  | c :: s, p :: ps => c == p && charsBeginWith s ps

/-- Model of Go strings.HasPrefix(s, pre). -/
def beginsWith (s pre : String) : Bool :=
  charsBeginWith s.data pre.data

/-- Model of the Go slice s[n:] under the guard that the first n bytes are
one-byte characters (here always n = 2 after matching "*."). -/
def dropChars (s : String) (n : Nat) : String :=
  String.mk (s.data.drop n)

/-- Model of Go strings.Split(s, ".") on the character sequence: cut at
every occurrence of the dot.  Always returns at least one piece. -/
def splitOnDotChars : List Char → List (List Char)
  | [] => [[]]
  | c :: cs =>
    if c == '.' then
      [] :: splitOnDotChars cs
    else
      match splitOnDotChars cs with
      | [] => [[c]]
      | p :: ps => (c :: p) :: ps

/-- Model of Go strings.Split(s, "."). -/
def splitOnDot (s : String) : List String :=
  (splitOnDotChars s.data).map String.mk

/-- Model of Go strings.Join(l, "."). -/
def joinDots (l : List String) : String :=
  String.mk (List.intercalate ['.'] (l.map String.data))

/-- Errors returned by the registry API (vhosts.go: ErrInvalidHostname,
ErrHostExists, ErrHostNotFound). -/
inductive VhostError where
  | errInvalidHostname
  | errHostExists
  | errHostNotFound
deriving DecidableEq

/-- The VhostsManager struct (vhosts.go).  Fields exactly mirror the Go
struct: an exact-hostname map, a wildcard-suffix map, an optional default
app, and the logging flag.  The Go struct has NO field for the
RecoverFromPanic configuration option, and the mutex `mu` is modelled by
the per-operation lock traces below. -/
structure VhostsManager (α : Type) where
  hosts : List (String × α)
  wildcards : List (String × α)
  defaultApp : Option α
  enableLog : Bool
deriving DecidableEq

/-- The Config struct (vhosts.go): default app, logging toggle and
panic-recovery toggle. -/
structure Config (α : Type) where
  DefaultApp : Option α
  EnableLogging : Bool
  RecoverFromPanic : Bool
deriving DecidableEq

/-- NewVhostsManager (vhosts.go).  Creates empty maps; when a Config is
given it copies DefaultApp and EnableLogging into the manager.  Note that,
as in the source, Config.RecoverFromPanic is never read: the manager has
no field to receive it. -/
def NewVhostsManager {α : Type} (config : List (Config α)) : VhostsManager α :=
  match config with
  | [] => ⟨[], [], none, false⟩
  | c :: _ => ⟨[], [], c.DefaultApp, c.EnableLogging⟩

/-- AddHostname (vhosts.go).  Empty hostname is rejected; a hostname
beginning with "*." registers its suffix in the wildcard map; otherwise the
hostname registers in the exact map; an existing key is rejected with
ErrHostExists and nothing changes.  Returns the Go error (none = nil)
together with the post-state. -/
def AddHostname {α : Type} (m : VhostsManager α) (hostname : String) (app : α) :
    Option VhostError × VhostsManager α :=
  if hostname = "" then
    (some .errInvalidHostname, m)
  else if beginsWith hostname "*." then
    if (List.lookup (dropChars hostname 2) m.wildcards).isSome then
      (some .errHostExists, m)
    else
      (none, { m with wildcards := (dropChars hostname 2, app) :: m.wildcards })
  else if (List.lookup hostname m.hosts).isSome then
    (some .errHostExists, m)
  else
    (none, { m with hosts := (hostname, app) :: m.hosts })

/-- RemoveHostname (vhosts.go).  Same "*." detection as AddHostname; a
missing key yields ErrHostNotFound, otherwise the entry is deleted. -/
def RemoveHostname {α : Type} (m : VhostsManager α) (hostname : String) :
    Option VhostError × VhostsManager α :=
  if beginsWith hostname "*." then
    if (List.lookup (dropChars hostname 2) m.wildcards).isNone then
      (some .errHostNotFound, m)
    else
      (none, { m with wildcards :=
        m.wildcards.filter (fun p => !(p.1 == dropChars hostname 2)) })
  else if (List.lookup hostname m.hosts).isNone then
    (some .errHostNotFound, m)
  else
    (none, { m with hosts := m.hosts.filter (fun p => !(p.1 == hostname)) })

/-- GetHostname (vhosts.go).  Exact-map lookup only; returns the Go pair
(app, exists), with the nil app of a miss rendered as none. -/
def GetHostname {α : Type} (m : VhostsManager α) (hostname : String) :
    Option α × Bool :=
  match List.lookup hostname m.hosts with
  | some app => (some app, true)
  | none => (none, false)

/-- GetHostnames (vhosts.go): the list of exact-map keys. -/
def GetHostnames {α : Type} (m : VhostsManager α) : List String :=
  m.hosts.map (·.1)

/-- SetDefaultApp (vhosts.go): unconditionally replaces the default app. -/
def SetDefaultApp {α : Type} (m : VhostsManager α) (app : α) : VhostsManager α :=
  { m with defaultApp := some app }

/-- findMatchingApp (vhosts.go): exact match first; otherwise, when the
hostname splits on "." into more than one part, the wildcard map is probed
with the parts after the first rejoined with "."; otherwise the default
app (possibly nil = none). -/
def findMatchingApp {α : Type} (m : VhostsManager α) (hostname : String) : Option α :=
  match List.lookup hostname m.hosts with
  | some app => some app
  | none =>
    let parts := splitOnDot hostname
    if parts.length > 1 then
      let domain := joinDots (parts.drop 1)
      match List.lookup domain m.wildcards with
      | some app => some app
      | none => m.defaultApp
    else
      m.defaultApp

/-- The hostname with its leftmost label stripped: split on ".", drop the
first segment, rejoin the rest (the key findMatchingApp probes the
wildcard map with). -/
def stripLeftmostLabel (hostname : String) : String :=
  joinDots ((splitOnDot hostname).drop 1)

/-- Whether a binding already exists for this hostname after the wildcard
normalization AddHostname and RemoveHostname both perform: a hostname
beginning with "*." is looked up by its suffix in the wildcard map, any
other hostname in the exact map. -/
def bindingExists {α : Type} (m : VhostsManager α) (hostname : String) : Bool :=
  if beginsWith hostname "*." then
    (List.lookup (dropChars hostname 2) m.wildcards).isSome
  else
    (List.lookup hostname m.hosts).isSome

/-- Diagnostic records VhostMiddleware can emit (log.Infof before
resolution, log.Warnf on resolution failure). -/
inductive LogEvent where
  | info (hostname : String)
  | warn (hostname : String)
deriving DecidableEq

/-- The observable outcome of one run of the closure VhostMiddleware
returns: `result` is none when the closure returns fiber.ErrNotFound
without invoking any handler, and some a when it invokes the handler of
app a and returns nil; `recoverWrapped` records whether the run executed
app.Use(recoverHandler), mutating the resolved sub-app; `logs` is the
sequence of diagnostic records emitted. -/
structure DispatchOutcome (α : Type) where
  result : Option α
  recoverWrapped : Bool
  logs : List LogEvent
deriving DecidableEq

/-- VhostMiddleware (vhosts.go), per request: logs an info record when
enableLog is set, resolves via findMatchingApp; on a nil result it logs a
warning (when enableLog is set) and returns fiber.ErrNotFound; otherwise
it executes app.Use(recoverHandler) when enableLog is set (the source
tests manager.enableLog here, not the RecoverFromPanic option) and invokes
the app's handler.  The recoverHandler itself is created unconditionally
at middleware construction and carries no state that affects this
outcome. -/
def VhostMiddleware {α : Type} (manager : VhostsManager α) (hostname : String) :
    DispatchOutcome α :=
  let logs1 := if manager.enableLog then [LogEvent.info hostname] else []
  match findMatchingApp manager hostname with
  | none =>
    { result := none
      recoverWrapped := false
      logs := logs1 ++ (if manager.enableLog then [LogEvent.warn hostname] else []) }
  | some app =>
    { result := some app
      recoverWrapped := manager.enableLog
      logs := logs1 }

/-- Lock and unlock calls on the manager's RWMutex, in the order an
operation performs them. -/
inductive LockEvent where
  | lock
  | unlock
  | rlock
  | runlock
deriving DecidableEq

/-- AddHostname acquires mu.Lock and releases it via defer (vhosts.go). -/
def AddHostname_lockTrace : List LockEvent := [.lock, .unlock]

/-- RemoveHostname acquires mu.Lock and releases it via defer (vhosts.go). -/
def RemoveHostname_lockTrace : List LockEvent := [.lock, .unlock]

/-- SetDefaultApp acquires mu.Lock and releases it via defer (vhosts.go). -/
def SetDefaultApp_lockTrace : List LockEvent := [.lock, .unlock]

/-- GetHostname acquires mu.RLock and releases it via defer (vhosts.go). -/
def GetHostname_lockTrace : List LockEvent := [.rlock, .runlock]

/-- GetHostnames acquires mu.RLock and releases it via defer (vhosts.go). -/
def GetHostnames_lockTrace : List LockEvent := [.rlock, .runlock]

/-- findMatchingApp performs no lock or unlock call at all: its body reads
m.hosts, m.wildcards and m.defaultApp directly (vhosts.go lines 127-143). -/
def findMatchingApp_lockTrace : List LockEvent := []

/-- Looking up a key in an association list from which every pair with that
key has been filtered out yields nothing. -/
theorem lookup_filter_self_eq_none {α : Type} (k : String) (l : List (String × α)) :
    List.lookup k (l.filter (fun p => !(p.1 == k))) = none := by
  induction l with
  | nil => rfl
  | cons p t ih =>
    obtain ⟨k1, v1⟩ := p
    by_cases h : k1 = k
    · simpa [List.filter_cons, h] using ih
    · have hb : (k1 == k) = false := beq_eq_false_iff_ne.mpr h
      have hkb : (k == k1) = false := beq_eq_false_iff_ne.mpr (Ne.symm h)
      simp only [List.filter_cons, hb, Bool.not_false, if_true, List.lookup, hkb]
      exact ih

/-- A "*."-hostname is absent from an association list none of whose keys
begins with "*.". -/
theorem lookup_eq_none_of_all_not_star {α : Type} (k : String)
    (l : List (String × α))
    (hall : l.all (fun p => !(beginsWith p.1 "*.")) = true)
    (hk : beginsWith k "*." = true) :
    List.lookup k l = none := by
  induction l with
  | nil => rfl
  | cons p t ih =>
    obtain ⟨k1, v1⟩ := p
    simp only [List.all_cons, Bool.and_eq_true, Bool.not_eq_true'] at hall
    have hne : (k == k1) = false := by
      refine beq_eq_false_iff_ne.mpr ?_
      intro he
      rw [he] at hk
      rw [hall.1] at hk
      exact Bool.false_ne_true hk
    simp only [List.lookup, hne]
    exact ih hall.2

/-- The middleware result field is exactly the resolver's answer. -/
theorem vhostMiddleware_result {α : Type} (m : VhostsManager α) (h : String) :
    (VhostMiddleware m h).result = findMatchingApp m h := by
  unfold VhostMiddleware
  cases hfm : findMatchingApp m h <;> simp [hfm]

/-- When the exact map misses and the wildcard probe (performed only when
the hostname splits into more than one part) misses, the resolver yields
the default app. -/
theorem findMatchingApp_eq_default {α : Type} (m : VhostsManager α) (h : String)
    (hex : List.lookup h m.hosts = none)
    (hw : (splitOnDot h).length > 1 →
      List.lookup (stripLeftmostLabel h) m.wildcards = none) :
    findMatchingApp m h = m.defaultApp := by
  unfold findMatchingApp
  rw [hex]
  by_cases hl : (splitOnDot h).length > 1
  · have hw2 := hw hl
    unfold stripLeftmostLabel at hw2
    simp only [hl, if_true]
    rw [hw2]
  · simp [hl]

/-- C1: findMatchingApp realises the three-tier precedence: an exact entry
for the hostname wins; otherwise, when the hostname contains at least one
"." (its split on "." has more than one part), the wildcard entry keyed by
the hostname with its leftmost label stripped wins; otherwise the default
app (possibly absent) is returned, and in particular a single-label
hostname never consults the wildcard map. -/
theorem findMatchingApp_three_tier {α : Type} (m : VhostsManager α) (h : String) :
    (∀ a, List.lookup h m.hosts = some a → findMatchingApp m h = some a) ∧
    (List.lookup h m.hosts = none → (splitOnDot h).length > 1 →
      ∀ a, List.lookup (stripLeftmostLabel h) m.wildcards = some a →
        findMatchingApp m h = some a) ∧
    (List.lookup h m.hosts = none →
      ((splitOnDot h).length > 1 →
        List.lookup (stripLeftmostLabel h) m.wildcards = none) →
      findMatchingApp m h = m.defaultApp) := by
  refine ⟨?_, ?_, ?_⟩
  · intro a ha
    unfold findMatchingApp
    rw [ha]
  · intro hex hl a ha
    unfold findMatchingApp
    rw [hex]
    unfold stripLeftmostLabel at ha
    simp only [hl, if_true]
    rw [ha]
  · intro hex hw
    exact findMatchingApp_eq_default m h hex hw

/-- Witness for C1 at concrete states: with an exact entry for "a.b.c" and
a wildcard entry for suffix "b.c", resolving "a.b.c" yields the exact
handler; without the exact entry it yields the wildcard handler; and the
single-label hostname "c" falls through to the default. -/
theorem findMatchingApp_three_tier_witness :
    findMatchingApp (⟨[("a.b.c", 1)], [("b.c", 2)], some 3, false⟩ :
      VhostsManager Nat) "a.b.c" = some 1 ∧
    findMatchingApp (⟨[], [("b.c", 2)], some 3, false⟩ :
      VhostsManager Nat) "a.b.c" = some 2 ∧
    findMatchingApp (⟨[("a.b.c", 1)], [("b.c", 2)], some 3, false⟩ :
      VhostsManager Nat) "c" = some 3 :=
  ⟨(findMatchingApp_three_tier _ "a.b.c").1 1 (by decide),
   ((findMatchingApp_three_tier _ "a.b.c").2.1 (by decide) (by decide) 2 (by decide)),
   ((findMatchingApp_three_tier _ "c").2.2 (by decide) (by decide))⟩

/-- C7: registering the empty hostname is rejected with ErrInvalidHostname
and the whole registry state is returned exactly as it was. -/
theorem addHostname_empty_rejected {α : Type} (m : VhostsManager α) (H : α) :
    AddHostname m "" H = (some .errInvalidHostname, m) := by
  unfold AddHostname
  simp

/-- AddHostname never changes the default app. -/
theorem addHostname_defaultApp {α : Type} (m : VhostsManager α) (h : String) (a : α) :
    (AddHostname m h a).2.defaultApp = m.defaultApp := by
  unfold AddHostname
  split_ifs <;> rfl

/-- RemoveHostname never changes the default app. -/
theorem removeHostname_defaultApp {α : Type} (m : VhostsManager α) (h : String) :
    (RemoveHostname m h).2.defaultApp = m.defaultApp := by
  unfold RemoveHostname
  split_ifs <;> rfl

/-- AddHostname with a "*."-hostname leaves the exact map unchanged. -/
theorem addHostname_hosts_of_star {α : Type} (m : VhostsManager α) (h : String)
    (a : α) (hs : beginsWith h "*." = true) :
    (AddHostname m h a).2.hosts = m.hosts := by
  unfold AddHostname
  split_ifs <;> simp_all

/-- RemoveHostname with a "*."-hostname leaves the exact map unchanged. -/
theorem removeHostname_hosts_of_star {α : Type} (m : VhostsManager α) (h : String)
    (hs : beginsWith h "*." = true) :
    (RemoveHostname m h).2.hosts = m.hosts := by
  unfold RemoveHostname
  split_ifs <;> simp_all

/-- AddHostname with a non-"*." hostname leaves the wildcard map unchanged. -/
theorem addHostname_wildcards_of_not_star {α : Type} (m : VhostsManager α)
    (h : String) (a : α) (hs : beginsWith h "*." = false) :
    (AddHostname m h a).2.wildcards = m.wildcards := by
  unfold AddHostname
  split_ifs <;> simp_all

/-- RemoveHostname with a non-"*." hostname leaves the wildcard map
unchanged. -/
theorem removeHostname_wildcards_of_not_star {α : Type} (m : VhostsManager α)
    (h : String) (hs : beginsWith h "*." = false) :
    (RemoveHostname m h).2.wildcards = m.wildcards := by
  unfold RemoveHostname
  split_ifs <;> simp_all

/-- C10: the operations are frame-disjoint: AddHostname and RemoveHostname
never touch the default app; on a "*."-hostname they leave the exact map
unchanged and otherwise they leave the wildcard map unchanged; and
SetDefaultApp leaves both maps unchanged. -/
theorem registry_frame_disjoint {α : Type} (m : VhostsManager α) (h : String) (a : α) :
    ((AddHostname m h a).2.defaultApp = m.defaultApp ∧
     (RemoveHostname m h).2.defaultApp = m.defaultApp) ∧
    (if beginsWith h "*." then
      (AddHostname m h a).2.hosts = m.hosts ∧
      (RemoveHostname m h).2.hosts = m.hosts
    else
      (AddHostname m h a).2.wildcards = m.wildcards ∧
      (RemoveHostname m h).2.wildcards = m.wildcards) ∧
    ((SetDefaultApp m a).hosts = m.hosts ∧
     (SetDefaultApp m a).wildcards = m.wildcards) := by
  refine ⟨⟨addHostname_defaultApp m h a, removeHostname_defaultApp m h⟩, ?_, rfl, rfl⟩
  by_cases hs : beginsWith h "*."
  · simp only [hs, if_true]
    exact ⟨addHostname_hosts_of_star m h a hs, removeHostname_hosts_of_star m h hs⟩
  · have hs2 : beginsWith h "*." = false := by
      exact Bool.not_eq_true _ ▸ (by simpa using hs)
    simp only [hs2, if_false, Bool.false_eq_true]
    exact ⟨addHostname_wildcards_of_not_star m h a hs2,
      removeHostname_wildcards_of_not_star m h hs2⟩

/-- C4: when the hostname has no exact entry and no wildcard entry for its
leftmost-label-stripped form (the wildcard probe only happens when the split
has more than one part), the dispatcher returns fiber.ErrNotFound and
invokes no handler (result = none) when no default app is configured, and
invokes exactly the default handler (result = some d, not the not-found
return) when one is. -/
theorem dispatch_default_or_notFound {α : Type} (m : VhostsManager α) (h : String)
    (hex : List.lookup h m.hosts = none)
    (hw : (splitOnDot h).length > 1 →
      List.lookup (stripLeftmostLabel h) m.wildcards = none) :
    (m.defaultApp = none → (VhostMiddleware m h).result = none) ∧
    (∀ d, m.defaultApp = some d → (VhostMiddleware m h).result = some d) := by
  have hres : (VhostMiddleware m h).result = m.defaultApp := by
    rw [vhostMiddleware_result, findMatchingApp_eq_default m h hex hw]
  exact ⟨fun hd => by rw [hres, hd], fun d hd => by rw [hres, hd]⟩

/-- Witness for C4: an unmatched hostname yields the not-found result with
no default configured, and the default handler once one is configured. -/
theorem dispatch_default_or_notFound_witness :
    (VhostMiddleware (⟨[], [], none, false⟩ : VhostsManager Nat) "x").result = none ∧
    (VhostMiddleware (⟨[], [], some 5, false⟩ : VhostsManager Nat) "x").result = some 5 :=
  ⟨(dispatch_default_or_notFound _ "x" (by decide) (by decide)).1 rfl,
   (dispatch_default_or_notFound _ "x" (by decide) (by decide)).2 5 rfl⟩

/-- C5: for a non-empty hostname, AddHostname answers ErrHostExists exactly
when a binding for the normalized key (wildcard suffix for "*."-hostnames,
the hostname itself otherwise) already exists, and in that case the whole
registry state is returned unchanged. -/
theorem addHostname_hostExists_characterization {α : Type} (m : VhostsManager α)
    (h : String) (a : α) (hne : h ≠ "") :
    ((AddHostname m h a).1 = some .errHostExists ↔ bindingExists m h = true) ∧
    (bindingExists m h = true → AddHostname m h a = (some .errHostExists, m)) := by
  unfold AddHostname bindingExists
  split_ifs <;> simp_all

/-- Witness for C5: re-adding the registered hostname "a" answers
ErrHostExists and leaves the registry untouched. -/
theorem addHostname_hostExists_characterization_witness :
    (AddHostname (⟨[("a", 1)], [], none, false⟩ : VhostsManager Nat) "a" 2).1 =
      some .errHostExists ∧
    AddHostname (⟨[("a", 1)], [], none, false⟩ : VhostsManager Nat) "a" 2 =
      (some .errHostExists, ⟨[("a", 1)], [], none, false⟩) :=
  ⟨((addHostname_hostExists_characterization _ "a" 2 (by decide)).1).mpr (by decide),
   (addHostname_hostExists_characterization _ "a" 2 (by decide)).2 (by decide)⟩

/-- C6: adding an unregistered non-empty non-wildcard hostname succeeds and
GetHostname then returns its handler with found = true; a second add of the
same hostname answers ErrHostExists, changes nothing, and GetHostname still
returns the first handler. -/
theorem add_then_lookup_roundtrip {α : Type} (m : VhostsManager α) (h : String)
    (H H' : α) (h1 : h ≠ "") (h2 : beginsWith h "*." = false)
    (h3 : List.lookup h m.hosts = none) :
    (AddHostname m h H).1 = none ∧
    GetHostname (AddHostname m h H).2 h = (some H, true) ∧
    (AddHostname (AddHostname m h H).2 h H').1 = some .errHostExists ∧
    (AddHostname (AddHostname m h H).2 h H').2 = (AddHostname m h H).2 ∧
    GetHostname (AddHostname (AddHostname m h H).2 h H').2 h = (some H, true) := by
  have hstep : AddHostname m h H = (none, { m with hosts := (h, H) :: m.hosts }) := by
    unfold AddHostname
    rw [if_neg h1]
    simp [h2, h3]
  have hlk : List.lookup h ((h, H) :: m.hosts) = some H := by
    simp [List.lookup]
  have hstep2 : AddHostname ({ m with hosts := (h, H) :: m.hosts }) h H' =
      (some .errHostExists, { m with hosts := (h, H) :: m.hosts }) := by
    unfold AddHostname
    rw [if_neg h1]
    simp [h2, hlk]
  rw [hstep, hstep2]
  refine ⟨rfl, ?_, rfl, rfl, ?_⟩ <;>
  · unfold GetHostname
    rw [hlk]

/-- Witness for C6 on the empty registry with hostname "a". -/
theorem add_then_lookup_roundtrip_witness :
    (AddHostname (⟨[], [], none, false⟩ : VhostsManager Nat) "a" 1).1 = none ∧
    GetHostname (AddHostname (⟨[], [], none, false⟩ : VhostsManager Nat) "a" 1).2 "a" =
      (some 1, true) ∧
    (AddHostname (AddHostname (⟨[], [], none, false⟩ : VhostsManager Nat) "a" 1).2 "a" 2).1 =
      some .errHostExists :=
  ⟨(add_then_lookup_roundtrip _ "a" 1 2 (by decide) (by decide) (by decide)).1,
   (add_then_lookup_roundtrip _ "a" 1 2 (by decide) (by decide) (by decide)).2.1,
   (add_then_lookup_roundtrip _ "a" 1 2 (by decide) (by decide) (by decide)).2.2.1⟩

/-- C8: RemoveHostname on a hostname with no binding (after the same "*."
normalization as AddHostname) answers ErrHostNotFound and changes nothing;
after a successful AddHostname, RemoveHostname of the same hostname
succeeds and GetHostname then reports found = false.  The hypothesis that
no exact-map key begins with "*." holds of every registry reachable
through the API, since AddHostname routes every "*."-hostname to the
wildcard map. -/
theorem removeHostname_spec {α : Type} (m : VhostsManager α) (h : String) (H : α)
    (hwf : m.hosts.all (fun p => !(beginsWith p.1 "*.")) = true) :
    (bindingExists m h = false →
      RemoveHostname m h = (some .errHostNotFound, m)) ∧
    ((AddHostname m h H).1 = none →
      (RemoveHostname (AddHostname m h H).2 h).1 = none ∧
      (GetHostname (RemoveHostname (AddHostname m h H).2 h).2 h).2 = false) := by
  constructor
  · intro hbe
    unfold bindingExists at hbe
    unfold RemoveHostname
    split_ifs <;> simp_all
  · intro hadd
    by_cases he : h = ""
    · unfold AddHostname at hadd
      simp [he] at hadd
    · by_cases hs : beginsWith h "*."
      · have hwn : List.lookup (dropChars h 2) m.wildcards = none := by
          cases hlk : List.lookup (dropChars h 2) m.wildcards with
          | none => rfl
          | some v =>
            unfold AddHostname at hadd
            rw [if_neg he] at hadd
            simp [hs, hlk] at hadd
        have hstep : AddHostname m h H =
            (none, { m with wildcards := (dropChars h 2, H) :: m.wildcards }) := by
          unfold AddHostname
          rw [if_neg he]
          simp [hs, hwn]
        have hrem : RemoveHostname
            ({ m with wildcards := (dropChars h 2, H) :: m.wildcards }) h =
            (none, { m with wildcards := ((dropChars h 2, H) :: m.wildcards).filter (fun p => !(p.1 == dropChars h 2)) }) := by
          unfold RemoveHostname
          simp [hs, List.lookup]
        rw [hstep, hrem]
        refine ⟨rfl, ?_⟩
        unfold GetHostname
        rw [lookup_eq_none_of_all_not_star h m.hosts hwf hs]
      · have hs2 : beginsWith h "*." = false := by simpa using hs
        have hhn : List.lookup h m.hosts = none := by
          cases hlk : List.lookup h m.hosts with
          | none => rfl
          | some v =>
            unfold AddHostname at hadd
            rw [if_neg he] at hadd
            simp [hs2, hlk] at hadd
        have hstep : AddHostname m h H =
            (none, { m with hosts := (h, H) :: m.hosts }) := by
          unfold AddHostname
          rw [if_neg he]
          simp [hs2, hhn]
        have hrem : RemoveHostname ({ m with hosts := (h, H) :: m.hosts }) h =
            (none, { m with hosts := ((h, H) :: m.hosts).filter (fun p => !(p.1 == h)) }) := by
          unfold RemoveHostname
          simp [hs2, List.lookup]
        rw [hstep, hrem]
        refine ⟨rfl, ?_⟩
        unfold GetHostname
        rw [lookup_filter_self_eq_none]

/-- Witness for C8: removing the unregistered "b" fails and changes
nothing; after adding "b" its removal succeeds and lookup misses. -/
theorem removeHostname_spec_witness :
    RemoveHostname (⟨[("a", 1)], [], none, false⟩ : VhostsManager Nat) "b" =
      (some .errHostNotFound, ⟨[("a", 1)], [], none, false⟩) ∧
    (RemoveHostname (AddHostname
      (⟨[("a", 1)], [], none, false⟩ : VhostsManager Nat) "b" 2).2 "b").1 = none ∧
    (GetHostname (RemoveHostname (AddHostname
      (⟨[("a", 1)], [], none, false⟩ : VhostsManager Nat) "b" 2).2 "b").2 "b").2 = false :=
  ⟨(removeHostname_spec _ "b" 2 (by decide)).1 (by decide),
   ((removeHostname_spec _ "b" 2 (by decide)).2 (by decide)).1,
   ((removeHostname_spec _ "b" 2 (by decide)).2 (by decide)).2⟩

/-- C2 (code bug): the dispatcher's panic-recovery wrapping is governed by
the EnableLogging flag, not RecoverFromPanic.  A manager built from a
Config with RecoverFromPanic = true and EnableLogging = false never wraps;
one built with EnableLogging = true and RecoverFromPanic = false always
wraps on a successful resolution; and two Configs differing only in
RecoverFromPanic build identical managers, the flag being dropped by
NewVhostsManager. -/
theorem recoverWrap_follows_enableLog_not_flag :
    (VhostMiddleware (NewVhostsManager
      [(⟨some 0, false, true⟩ : Config Nat)]) "x").recoverWrapped = false ∧
    (VhostMiddleware (NewVhostsManager
      [(⟨some 0, true, false⟩ : Config Nat)]) "x").recoverWrapped = true ∧
    NewVhostsManager [(⟨some 0, false, true⟩ : Config Nat)] =
      NewVhostsManager [(⟨some 0, false, false⟩ : Config Nat)] := by
  decide

/-- C3 (code bug): two runs differing only in the logging flag resolve the
same handler, but the run with logging enabled additionally executes
app.Use(recoverHandler), mutating the resolved sub-app, while the run with
logging disabled does not: enabling diagnostics is not observationally
neutral. -/
theorem enableLogging_wraps_resolved_app :
    (VhostMiddleware (⟨[], [], some 0, true⟩ : VhostsManager Nat) "x").result =
      (VhostMiddleware (⟨[], [], some 0, false⟩ : VhostsManager Nat) "x").result ∧
    (VhostMiddleware (⟨[], [], some 0, true⟩ : VhostsManager Nat) "x").recoverWrapped
      = true ∧
    (VhostMiddleware (⟨[], [], some 0, false⟩ : VhostsManager Nat) "x").recoverWrapped
      = false := by
  decide

/-- C9 (code bug): the mutating operations take the exclusive lock and the
two Get accessors take the shared lock, but findMatchingApp — the resolver
every dispatched request runs — performs no lock acquisition at all. -/
theorem findMatchingApp_acquires_no_lock :
    findMatchingApp_lockTrace = [] ∧
    GetHostname_lockTrace = [.rlock, .runlock] ∧
    GetHostnames_lockTrace = [.rlock, .runlock] ∧
    AddHostname_lockTrace = [.lock, .unlock] ∧
    RemoveHostname_lockTrace = [.lock, .unlock] ∧
    SetDefaultApp_lockTrace = [.lock, .unlock] := by
  decide

end FiberVhosts
